import Mathlib

/-!
A shallow embedding of the chess rules engine of the `bevy-chess` repository:
the board coordinate model (`src/board/components.rs`), piece move generation
and legality (`src/pieces/components.rs`), the game-status machine
(`src/board/status.rs`), en-passant capture resolution (`src/board/movement.rs`)
and the move-notation disambiguator (`src/board/history.rs`).

Rendering and ECS plumbing are not modelled.  Pure functions are translated
directly; `i8` coordinates are embedded as `Int` (the arithmetic performed on
board coordinates stays far inside the `i8` bounds, where Rust's `i8` agrees
with `Int`); `HashSet<Square>` results are embedded as `List Square`, with
membership as the observable behaviour; Rust `Option`/`Result` become
`Option`/`Except`.
-/

namespace Chess

/-- Modelled from the spec: the rank and file bound constants (`RANK_1`,
`RANK_8`, `A_FILE`, `H_FILE`) referenced by `Square::is_valid` live in the
`board` module root, which is not among the provided source files; the spec
fixes both coordinates of an on-board square to the range `0..7` (file letters
a–h, rank numbers 1–8). -/
def RANK_1 : Int := 0

def RANK_8 : Int := 7

def A_FILE : Int := 0

def H_FILE : Int := 7

/-- `Square` from `board/components.rs`: a board coordinate with `rank` and
`file` (`i8` in Rust, embedded as `Int`). -/
structure Square where
  rank : Int
  file : Int
deriving DecidableEq

/-- `Square::is_adjacent`: true when `other` is at most one rank and one file
away, diagonals included.  (The source's own doc claims the square itself is
not adjacent, but the `≤ 1` bound also holds at distance zero; the code is
translated as written — the equal-square case is filtered out by the callers.) -/
def Square.is_adjacent (s other : Square) : Bool :=
  decide ((s.rank - other.rank).natAbs ≤ 1 ∧ (s.file - other.file).natAbs ≤ 1)

/-- `Square::is_same_rank`. -/
def Square.is_same_rank (s other : Square) : Bool :=
  decide (s.rank = other.rank)

/-- `Square::is_same_file`. -/
def Square.is_same_file (s other : Square) : Bool :=
  decide (s.file = other.file)

/-- `Square::is_same_diagonal`. -/
def Square.is_same_diagonal (s other : Square) : Bool :=
  decide ((s.rank - other.rank).natAbs = (s.file - other.file).natAbs)

/-- `Square::is_valid`: both coordinates within the board bounds. -/
def Square.is_valid (s : Square) : Bool :=
  decide (RANK_1 ≤ s.rank ∧ s.rank ≤ RANK_8 ∧ A_FILE ≤ s.file ∧ s.file ≤ H_FILE)

/-- The `Add<(i8, i8)>` implementation for `Square`: component-wise sum, the
first offset component applying to the rank and the second to the file. -/
def Square.add (s : Square) (rhs : Int × Int) : Square :=
  ⟨s.rank + rhs.1, s.file + rhs.2⟩

/-- `Square::try_add`: the fallible offset operation, returning `Err` (never
wrapping or clamping) when the component-wise sum leaves the board. -/
def Square.try_add (s : Square) (rhs : Int × Int) : Except String Square :=
  let addition := s.add rhs
  if addition.is_valid then Except.ok addition
  else Except.error "this error message should never be used"

/-- `PieceColour` from `pieces/components.rs`. -/
inductive PieceColour where
  | White
  | Black
deriving DecidableEq

/-- `PieceColour::opponent`. -/
def PieceColour.opponent : PieceColour → PieceColour
  | .White => .Black
  | .Black => .White

/-- `PieceColour::pawn_movement_direction`: `1` for White, `-1` for Black. -/
def PieceColour.pawn_movement_direction : PieceColour → Int
  | .White => 1
  | .Black => -1

/-- `PieceType` from `pieces/components.rs`. -/
inductive PieceType where
  | King
  | Queen
  | Bishop
  | Knight
  | Rook
  | Pawn
deriving DecidableEq

/-- `Piece` from `pieces/components.rs`. -/
structure Piece where
  colour : PieceColour
  piece_type : PieceType
  pos : Square
  has_moved : Bool
deriving DecidableEq

/-- `MoveRecord`: the previous move as (piece snapshot before the move,
origin, destination). -/
def MoveRecord := Piece × Square × Square

instance : DecidableEq MoveRecord := by
  unfold MoveRecord
  infer_instance

/-- `Square::is_occupied`: linear scan; the colour of the first piece in the
slice sitting on this square, if any. -/
def Square.is_occupied (s : Square) (pieces : List Piece) : Option PieceColour :=
  (pieces.find? (fun piece => decide (s = piece.pos))).map (fun piece => piece.colour)

/-- C9: `Square::try_add` returns `Ok` of the component-wise sum exactly when
that sum has both rank and file in `[0, 7]`; every `Ok` result is exactly the
component-wise sum (no wrapping, no clamping); and whenever the sum lies off
the board the result is an `Err`. -/
theorem try_add_ok_iff (s : Square) (o : Int × Int) :
    (s.try_add o = Except.ok ⟨s.rank + o.1, s.file + o.2⟩ ↔
      (0 ≤ s.rank + o.1 ∧ s.rank + o.1 ≤ 7 ∧ 0 ≤ s.file + o.2 ∧ s.file + o.2 ≤ 7)) ∧
    (∀ sq, s.try_add o = Except.ok sq → sq = ⟨s.rank + o.1, s.file + o.2⟩) ∧
    (¬ (0 ≤ s.rank + o.1 ∧ s.rank + o.1 ≤ 7 ∧ 0 ≤ s.file + o.2 ∧ s.file + o.2 ≤ 7) →
      ∃ msg, s.try_add o = Except.error msg) := by
  have hval : (Square.add s o).is_valid = true ↔
      (0 ≤ s.rank + o.1 ∧ s.rank + o.1 ≤ 7 ∧ 0 ≤ s.file + o.2 ∧ s.file + o.2 ≤ 7) := by
    simp [Square.is_valid, Square.add, RANK_1, RANK_8, A_FILE, H_FILE]
  refine ⟨?_, ?_, ?_⟩
  · constructor
    · intro h
      by_contra hrange
      have : ¬ (Square.add s o).is_valid = true := fun hv => hrange (hval.mp hv)
      simp [Square.try_add, this] at h
    · intro hrange
      have hv : (Square.is_valid ⟨s.rank + o.1, s.file + o.2⟩) = true := hval.mpr hrange
      simp [Square.try_add, Square.add, hv]
  · intro sq h
    by_cases hv : (Square.add s o).is_valid = true
    · simp [Square.try_add, hv] at h
      simp [← h, Square.add]
    · simp [Square.try_add, hv] at h
  · intro hrange
    have hv : ¬ (Square.add s o).is_valid = true := fun hv => hrange (hval.mp hv)
    exact ⟨"this error message should never be used", by simp [Square.try_add, hv]⟩

/-- Witness for C9: a concrete in-range offset yields `Ok` of the sum, and a
concrete out-of-range offset yields an `Err`. -/
theorem try_add_ok_iff_witness :
    (Square.try_add ⟨0, 0⟩ (3, 4) = Except.ok ⟨3, 4⟩) ∧
    (∃ msg, Square.try_add ⟨0, 0⟩ (8, 0) = Except.error msg) := by
  constructor
  · have h := (try_add_ok_iff ⟨0, 0⟩ (3, 4)).1.mpr (by norm_num)
    simpa using h
  · exact (try_add_ok_iff ⟨0, 0⟩ (8, 0)).2.2 (by norm_num)

/-- `is_path_empty` from `pieces/components.rs`: checks that no supplied piece
lies strictly between the two squares along a rank, a file, or a diagonal.
When the two squares are not aligned at all (and not on a common diagonal) it
returns `true`, exactly as the source does. -/
def is_path_empty (begin_sq end_sq : Square) (pieces : List Piece) : Bool :=
  if begin_sq.rank = end_sq.rank then
    ! pieces.any (fun piece => decide (piece.pos.rank = begin_sq.rank ∧
        ((begin_sq.file < piece.pos.file ∧ piece.pos.file < end_sq.file) ∨
         (end_sq.file < piece.pos.file ∧ piece.pos.file < begin_sq.file))))
  else if begin_sq.file = end_sq.file then
    ! pieces.any (fun piece => decide (piece.pos.file = begin_sq.file ∧
        ((begin_sq.rank < piece.pos.rank ∧ piece.pos.rank < end_sq.rank) ∨
         (end_sq.rank < piece.pos.rank ∧ piece.pos.rank < begin_sq.rank))))
  else
    let x_diff := (begin_sq.rank - end_sq.rank).natAbs
    let y_diff := (begin_sq.file - end_sq.file).natAbs
    if x_diff = y_diff then
      (List.range' 1 (x_diff - 1)).all (fun i =>
        let step : Int := i
        let pos : Square :=
          if begin_sq.rank < end_sq.rank ∧ begin_sq.file < end_sq.file then
            ⟨begin_sq.rank + step, begin_sq.file + step⟩
          else if begin_sq.rank < end_sq.rank ∧ end_sq.file < begin_sq.file then
            ⟨begin_sq.rank + step, begin_sq.file - step⟩
          else if end_sq.rank < begin_sq.rank ∧ begin_sq.file < end_sq.file then
            ⟨begin_sq.rank - step, begin_sq.file + step⟩
          else
            ⟨begin_sq.rank - step, begin_sq.file - step⟩
        (pos.is_occupied pieces).isNone)
    else true

/-- `Piece::may_take_en_passant`: false for non-pawns; otherwise requires that
the previous move was a pawn double step (rank distance 2) ending in an
adjacent file on the capturing pawn's rank, and that the destination is in the
double-stepped pawn's file at rank distance 1 from it. -/
def may_take_en_passant (self : Piece) (new_position : Square)
    (last_move : Option MoveRecord) : Bool :=
  if self.piece_type ≠ PieceType.Pawn then false
  else
    match last_move with
    | some (prev_piece, last_move_origin, last_move_destination) =>
      decide (prev_piece.piece_type = PieceType.Pawn ∧
        (last_move_origin.rank - last_move_destination.rank).natAbs = 2 ∧
        (last_move_destination.file - self.pos.file).natAbs = 1 ∧
        last_move_destination.rank = self.pos.rank ∧
        new_position.file = last_move_destination.file ∧
        (new_position.rank - last_move_destination.rank).natAbs = 1)
    | none => false

/-- `is_valid_for_queen` from `pieces/components.rs`. -/
def is_valid_for_queen (piece : Piece) (new_position : Square) (pieces : List Piece) : Bool :=
  is_path_empty piece.pos new_position pieces &&
    (new_position.is_same_diagonal piece.pos ||
     new_position.is_same_file piece.pos ||
     new_position.is_same_rank piece.pos)

/-- `is_valid_for_bishop` from `pieces/components.rs`. -/
def is_valid_for_bishop (piece : Piece) (new_position : Square) (pieces : List Piece) : Bool :=
  is_path_empty piece.pos new_position pieces && new_position.is_same_diagonal piece.pos

/-- `is_valid_for_rook` from `pieces/components.rs`. -/
def is_valid_for_rook (piece : Piece) (new_position : Square) (pieces : List Piece) : Bool :=
  is_path_empty piece.pos new_position pieces &&
    (new_position.is_same_file piece.pos || new_position.is_same_rank piece.pos)

/-- `is_valid_for_knight` from `pieces/components.rs`. -/
def is_valid_for_knight (piece : Piece) (new_position : Square) : Bool :=
  decide (((piece.pos.rank - new_position.rank).natAbs = 2 ∧
           (piece.pos.file - new_position.file).natAbs = 1) ∨
          ((piece.pos.rank - new_position.rank).natAbs = 1 ∧
           (piece.pos.file - new_position.file).natAbs = 2))

/-- `is_valid_for_pawn` from `pieces/components.rs`: the three early-return
branches (standard step, initial double step, diagonal capture) followed by
the en-passant disjunct, in source order. -/
def is_valid_for_pawn (piece : Piece) (new_position : Square) (pieces : List Piece)
    (last_move : Option MoveRecord) : Bool :=
  let movement_direction := piece.colour.pawn_movement_direction
  if new_position.rank - piece.pos.rank = movement_direction ∧
      piece.pos.file = new_position.file then
    (new_position.is_occupied pieces).isNone
  else if (¬ piece.has_moved = true) ∧
      new_position.rank - piece.pos.rank = 2 * movement_direction ∧
      piece.pos.file = new_position.file ∧
      is_path_empty piece.pos new_position pieces = true then
    (new_position.is_occupied pieces).isNone
  else
    let may_take :=
      if new_position.rank - piece.pos.rank = movement_direction ∧
          (piece.pos.file - new_position.file).natAbs = 1 then
        decide (new_position.is_occupied pieces = some piece.colour.opponent)
      else false
    may_take || may_take_en_passant piece new_position last_move

/-- `Piece::is_move_valid` restricted to the non-king piece types.  The only
caller that needs this restriction is `no_check_in_path`, which filters kings
out of the opposing pieces before calling `is_move_valid`; on every piece it
is actually applied to it agrees with `is_move_valid` (the `King` arm below is
unreachable there), which breaks the source's castling/validity recursion at
exactly the point the runtime filter does. -/
def is_move_valid_non_king (self : Piece) (new_position : Square) (pieces : List Piece)
    (last_move : Option MoveRecord) : Bool :=
  if new_position = self.pos ∨ new_position.is_occupied pieces = some self.colour then
    false
  else
    match self.piece_type with
    | .King => false
    | .Queen => is_valid_for_queen self new_position pieces
    | .Bishop => is_valid_for_bishop self new_position pieces
    | .Knight => is_valid_for_knight self new_position
    | .Rook => is_valid_for_rook self new_position pieces
    | .Pawn => is_valid_for_pawn self new_position pieces last_move

/-- `Piece::no_check_in_path`: the three squares the king passes through
(start, middle, end), none of which may be reachable by a valid move of an
opposing non-king piece (the opposing king is excluded by the source to
prevent endless recursion). -/
def no_check_in_path (self : Piece) (new_position : Square) (pieces : List Piece) : Bool :=
  let direction : Int := if new_position.file > self.pos.file then 1 else -1
  let path : List Square :=
    (List.range' 0 3).map (fun step => ⟨self.pos.rank, self.pos.file + (step : Int) * direction⟩)
  ! ((pieces.filter (fun opp_piece =>
        decide (opp_piece.colour = self.colour.opponent ∧
          opp_piece.piece_type ≠ PieceType.King))).any
      (fun opp_piece => path.any (fun path_sq =>
        is_move_valid_non_king opp_piece path_sq pieces
          (some (self, self.pos, new_position)))))

/-- `Piece::may_castle`: requires an unmoved king moving within its rank, an
unmoved same-colour rook on file 0 (when the destination file is 2) or file 7
(otherwise) with `is_path_empty` between the king and the *destination*, and
no opposing (non-king) attack on the king's path. -/
def may_castle (self : Piece) (new_position : Square) (pieces : List Piece) : Bool :=
  if (¬ self.has_moved = true) ∧ self.piece_type = PieceType.King ∧
      self.pos.rank = new_position.rank then
    ((pieces.filter (fun oth_piece =>
        decide (oth_piece.piece_type = PieceType.Rook ∧
          oth_piece.colour = self.colour ∧ ¬ oth_piece.has_moved = true))).any
      (fun rook =>
        if new_position.file = 2 then
          decide (rook.pos.file = 0) && is_path_empty self.pos new_position pieces
        else
          decide (rook.pos.file = 7) && is_path_empty self.pos new_position pieces))
    && no_check_in_path self new_position pieces
  else false

/-- `is_valid_for_king` from `pieces/components.rs`: adjacency or castling. -/
def is_valid_for_king (piece : Piece) (new_position : Square) (pieces : List Piece) : Bool :=
  piece.pos.is_adjacent new_position || may_castle piece new_position pieces

/-- `Piece::is_move_valid`: structural validity (movement pattern and path
clearance) without the check-avoidance filter.  A pinned piece may have a
valid move that is not a legal one. -/
def is_move_valid (self : Piece) (new_position : Square) (pieces : List Piece)
    (last_move : Option MoveRecord) : Bool :=
  if new_position = self.pos ∨ new_position.is_occupied pieces = some self.colour then
    false
  else
    match self.piece_type with
    | .King => is_valid_for_king self new_position pieces
    | .Queen => is_valid_for_queen self new_position pieces
    | .Bishop => is_valid_for_bishop self new_position pieces
    | .Knight => is_valid_for_knight self new_position
    | .Rook => is_valid_for_rook self new_position pieces
    | .Pawn => is_valid_for_pawn self new_position pieces last_move

/-- `Piece::WHITE_PAWN_OFFSETS`. -/
def WHITE_PAWN_OFFSETS : List (Int × Int) := [(1, 0), (2, 0), (1, 1), (1, -1)]

/-- `Piece::BLACK_PAWN_OFFSETS`. -/
def BLACK_PAWN_OFFSETS : List (Int × Int) := [(-1, 0), (-2, 0), (-1, -1), (-1, 1)]

/-- `Piece::KNIGHT_OFFSETS`. -/
def KNIGHT_OFFSETS : List (Int × Int) :=
  [(1, 2), (-1, 2), (1, -2), (-1, -2), (2, 1), (-2, 1), (2, -1), (-2, -1)]

/-- `Piece::KING_OFFSETS` (the last two entries are the castling offsets). -/
def KING_OFFSETS : List (Int × Int) :=
  [(0, 1), (0, -1), (1, 1), (1, -1), (-1, 1), (-1, -1), (1, 0), (-1, 0), (0, 2), (0, -2)]

/-- `Piece::BISHOP_OFFSETS`. -/
def BISHOP_OFFSETS : List (Int × Int) := [(1, 1), (-1, -1), (-1, 1), (1, -1)]

/-- `Piece::ROOK_OFFSETS`. -/
def ROOK_OFFSETS : List (Int × Int) := [(0, 1), (0, -1), (1, 0), (-1, 0)]

/-- Rust's `Result::ok`, specialised to `try_add`'s result type: `Ok` becomes
`some`, `Err` is discarded. -/
def result_ok (r : Except String Square) : Option Square :=
  match r with
  | .ok sq => some sq
  | .error _ => none

/-- `Piece::multiple_steps`: project an offset outward with factors 1 through
7, keeping the on-board squares. -/
def multiple_steps (self : Piece) (offset : Int × Int) : List Square :=
  (List.range' 1 7).filterMap
    (fun step => result_ok (self.pos.try_add (offset.1 * Int.ofNat step, offset.2 * Int.ofNat step)))

/-- `Piece::get_move_set`: the maximal candidate destinations from the offset
tables, with off-board results discarded by `try_add`. -/
def get_move_set (self : Piece) : List Square :=
  match self.piece_type with
  | .Pawn =>
    match self.colour with
    | .White => WHITE_PAWN_OFFSETS.filterMap (fun offset => result_ok (self.pos.try_add offset))
    | .Black => BLACK_PAWN_OFFSETS.filterMap (fun offset => result_ok (self.pos.try_add offset))
  | .Knight => KNIGHT_OFFSETS.filterMap (fun offset => result_ok (self.pos.try_add offset))
  | .King => KING_OFFSETS.filterMap (fun offset => result_ok (self.pos.try_add offset))
  | .Bishop => BISHOP_OFFSETS.flatMap (fun offset => multiple_steps self offset)
  | .Rook => ROOK_OFFSETS.flatMap (fun offset => multiple_steps self offset)
  | .Queen => (ROOK_OFFSETS ++ BISHOP_OFFSETS).flatMap (fun offset => multiple_steps self offset)

/-- `Piece::has_clear_path`: empty path to the destination and the destination
itself not occupied by a same-colour piece. -/
def has_clear_path (self : Piece) (new_position : Square) (pieces : List Piece) : Bool :=
  is_path_empty self.pos new_position pieces &&
    decide (new_position.is_occupied pieces ≠ some self.colour)

/-- `Piece::piece_specfic_rules` (source spelling): the king and pawn rules;
all other piece types pass. -/
def piece_specfic_rules (self : Piece) (new_position : Square) (pieces : List Piece)
    (last_move : Option MoveRecord) : Bool :=
  match self.piece_type with
  | .King => is_valid_for_king self new_position pieces
  | .Pawn => is_valid_for_pawn self new_position pieces last_move
  | _ => true

/-- The simulated piece list built inside `Piece::avoids_check`: every piece on
the mover's square is relocated to the destination, opposing pieces on the
destination are removed, everything else is kept. -/
def simulated_pieces (self : Piece) (new_position : Square) (pieces : List Piece) : List Piece :=
  pieces.filterMap (fun piece =>
    if piece.pos = self.pos then some { piece with pos := new_position }
    else if piece.colour = self.colour ∨ piece.pos ≠ new_position then some piece
    else none)

/-- `Piece::avoids_check`: true when, in the simulated position, no opposing
piece has a valid move onto the mover's own king's square.  The source
`expect`s the king to be present; the `none` arm models that panic by an
arbitrary total value and is unreached whenever a same-colour king is on the
board. -/
def avoids_check (self : Piece) (new_position : Square) (pieces : List Piece) : Bool :=
  let sim := simulated_pieces self new_position pieces
  match sim.find? (fun piece =>
      decide (piece.colour = self.colour ∧ piece.piece_type = PieceType.King)) with
  | some own_king =>
    ! ((sim.filter (fun piece => decide (¬ piece.colour = self.colour))).any
        (fun piece => is_move_valid piece own_king.pos sim (some (self, self.pos, new_position))))
  | none => false

/-- `Piece::legal_moves`: the candidate set filtered by clear path, the
piece-specific rules and the check-avoidance filter. -/
def legal_moves (self : Piece) (pieces : List Piece) (last_move : Option MoveRecord) :
    List Square :=
  (get_move_set self).filter (fun destination =>
    has_clear_path self destination pieces &&
    piece_specfic_rules self destination pieces last_move &&
    avoids_check self destination pieces)

/-- `MoveType` from `board/movement.rs`; the captured-piece `Entity` handles
are embedded as `Nat` identifiers. -/
inductive MoveType where
  | Move
  | Take (entity : Nat)
  | TakeEnPassant (entity : Nat)
  | Castle
deriving DecidableEq

/-- `MoveMadeEvent` from `board/movement.rs`: the applied move the status and
history systems consume. -/
structure MoveMadeEvent where
  piece : Piece
  origin : Square
  destination : Square
  move_type : MoveType
deriving DecidableEq

/-- `MoveMadeEvent::is_take`: true for `Take` and `TakeEnPassant`. -/
def MoveMadeEvent.is_take (e : MoveMadeEvent) : Bool :=
  match e.move_type with
  | .Take _ => true
  | .TakeEnPassant _ => true
  | _ => false

/-- The `MoveRecord` read off a `MoveMadeEvent` when the event is passed to
`legal_moves` as the previous move (piece snapshot, origin, destination). -/
def MoveMadeEvent.record (e : MoveMadeEvent) : MoveRecord :=
  (e.piece, e.origin, e.destination)

/-- `is_in_check` from `board/status.rs`: finds the player's own king and asks
whether any opposing piece's `legal_moves` set contains the king's square.
The source `unwrap`s the king lookup; the `none` arm models that panic by an
arbitrary total value and is unreached when the king is on the board. -/
def is_in_check (player_colour : PieceColour) (pieces pieces_vec : List Piece)
    (last_move : MoveMadeEvent) : Bool :=
  match pieces_vec.find? (fun piece =>
      decide (piece.colour = player_colour ∧ piece.piece_type = PieceType.King)) with
  | some own_king =>
    (pieces.filter (fun piece => decide (piece.colour = player_colour.opponent))).any
      (fun piece => decide (own_king.pos ∈ legal_moves piece pieces_vec (some last_move.record)))
  | none => false

/-- `player_has_moves` from `board/status.rs`: the player's pieces have at
least one legal move between them. -/
def player_has_moves (player_colour : PieceColour) (pieces pieces_vec : List Piece)
    (last_move : MoveMadeEvent) : Bool :=
  decide (0 < ((pieces.filter (fun piece => decide (piece.colour = player_colour))).flatMap
    (fun piece => legal_moves piece pieces_vec (some last_move.record))).length)

/-- `DrawReason` from `board/status.rs` (the two implemented reasons). -/
inductive DrawReason where
  | Stalemate
  | FiftyMoveRule
deriving DecidableEq

/-- `GameStatus` from `board/status.rs`. -/
inductive GameStatus where
  | NotStarted
  | OnGoing
  | Check
  | Checkmate
  | Draw (reason : DrawReason)
deriving DecidableEq

/-- The state written by one run of the `update_status` system: the fifty-move
counter (`Local<i32> last_action`), the player turn and the game status. -/
structure StatusUpdate where
  last_action : Int
  turn : PieceColour
  status : GameStatus
deriving DecidableEq

/-- The status if-chain of `update_status` (`board/status.rs` lines 80–93),
taken after the fifty-move counter has been updated and `check` /
`has_moves` computed; `turn.change()` is modelled by returning the opponent
colour in the two branches that call it. -/
def update_status_branches (last_action : Int) (turn : PieceColour)
    (check has_moves : Bool) : StatusUpdate :=
  if check = true ∧ has_moves = false then ⟨last_action, turn, .Checkmate⟩
  else if last_action = 50 then ⟨last_action, turn, .Draw .FiftyMoveRule⟩
  else if check = true ∧ has_moves = true then ⟨last_action, turn.opponent, .Check⟩
  else if check = false ∧ has_moves = false then ⟨last_action, turn, .Draw .Stalemate⟩
  else ⟨last_action, turn.opponent, .OnGoing⟩

/-- `update_status` from `board/status.rs` as a pure transition function on
the counter, turn and board state: reset or bump the fifty-move counter, then
run the status if-chain with the opponent's `has_moves` and `check`. -/
def update_status (last_action : Int) (turn : PieceColour) (pieces : List Piece)
    (last_move : MoveMadeEvent) : StatusUpdate :=
  update_status_branches
    (if last_move.piece.piece_type = PieceType.Pawn ∨ last_move.is_take = true then 0
     else last_action + 1)
    turn
    (is_in_check turn.opponent pieces pieces last_move)
    (player_has_moves turn.opponent pieces pieces last_move)

/-- `Square::file_annotation` (`board/components.rs`), the file letter.  The
source matches on the `A_FILE`..`H_FILE` constants (modelled from the spec as
0..7) and panics on any other value; the panic arm is modelled by an
arbitrary total value. -/
def file_label (s : Square) : String :=
  if s.file = 0 then "a"
  else if s.file = 1 then "b"
  else if s.file = 2 then "c"
  else if s.file = 3 then "d"
  else if s.file = 4 then "e"
  else if s.file = 5 then "f"
  else if s.file = 6 then "g"
  else if s.file = 7 then "h"
  else "impossible file"

/-- `Square::rank_annotation` (`board/components.rs`): the rank number as text
(rank index plus one). -/
def rank_label (s : Square) : String :=
  toString (s.rank + 1)

/-- The `Display` implementation for `Square`: file letter then rank digit. -/
def Square.algebraic (s : Square) : String :=
  file_label s ++ rank_label s

/-- `disambiguate_piece` from `board/history.rs`: the notation disambiguator
computed from the other same-colour, same-type pieces whose legal-move set
contains the destination. -/
def disambiguate_piece (last_move : MoveMadeEvent) (moving_piece : Piece)
    (pieces : List Piece) (destination : Square) : String :=
  let ambiguous_pieces := pieces.filter (fun piece =>
    decide (piece.colour = moving_piece.colour ∧
      piece.piece_type = moving_piece.piece_type ∧
      destination ∈ legal_moves piece pieces (some last_move.record) ∧
      piece.pos ≠ moving_piece.pos))
  let file_ambiguous :=
    ambiguous_pieces.any (fun piece => decide (piece.pos.file = moving_piece.pos.file))
  let rank_ambiguous :=
    ambiguous_pieces.any (fun piece => decide (piece.pos.rank = moving_piece.pos.rank))
  if file_ambiguous then
    if rank_ambiguous then moving_piece.pos.algebraic else rank_label moving_piece.pos
  else if ! ambiguous_pieces.isEmpty then file_label moving_piece.pos
  else ""

/-- `get_en_passant_piece` from `board/movement.rs`: when the capturing piece
may take en passant onto `square`, the taken entity is the one standing on the
previous move's destination.  The piece `Query` is embedded as a list of
(entity, piece) pairs; the source `unwrap`s the capturing-entity lookup, so a
missing entity (modelled as `none`) is a panic that the claims never reach. -/
def get_en_passant_piece (pieces : List (Nat × Piece)) (square : Square)
    (piece_entity : Nat) (last_move : Option MoveMadeEvent) : Option Nat :=
  match pieces.find? (fun ep => decide (ep.1 = piece_entity)) with
  | none => none
  | some (_, capturer) =>
    if may_take_en_passant capturer square (last_move.map MoveMadeEvent.record) then
      match last_move with
      | none => none
      | some last_move_event =>
        (pieces.find? (fun ep => decide (ep.2.pos = last_move_event.destination))).map
          (fun ep => ep.1)
    else none

/-- An `Ok` result of `try_add`, viewed through `Result::ok`, is exactly the
component-wise sum, and it is on the board. -/
theorem result_ok_try_add {p : Square} {o : Int × Int} {d : Square}
    (h : result_ok (p.try_add o) = some d) : d = p.add o ∧ d.is_valid = true := by
  by_cases hv : (p.add o).is_valid = true
  · simp [Square.try_add, hv, result_ok] at h
    exact ⟨h.symm, h ▸ hv⟩
  · simp [Square.try_add, hv, result_ok] at h

/-- Applying a list of non-zero offsets through `try_add` never returns the
starting square. -/
theorem mem_filterMap_try_add_ne {p : Square} {L : List (Int × Int)} {d : Square}
    (h0 : ∀ o ∈ L, o ≠ ((0 : Int), (0 : Int)))
    (hd : d ∈ L.filterMap (fun offset => result_ok (p.try_add offset))) : d ≠ p := by
  rw [List.mem_filterMap] at hd
  obtain ⟨o, ho, hres⟩ := hd
  obtain ⟨hadd, -⟩ := result_ok_try_add hres
  intro hdp
  apply h0 o ho
  have hr : p.rank + o.1 = p.rank := by
    have := congrArg Square.rank (hdp ▸ hadd)
    simpa [Square.add] using this.symm
  have hf : p.file + o.2 = p.file := by
    have := congrArg Square.file (hdp ▸ hadd)
    simpa [Square.add] using this.symm
  obtain ⟨o1, o2⟩ := o
  simp only [Prod.mk.injEq]
  constructor <;> omega

/-- A square produced by `multiple_steps` with a non-zero offset direction is
never the starting square. -/
theorem mem_multiple_steps_ne {self : Piece} {o : Int × Int} {d : Square}
    (h0 : o ≠ ((0 : Int), (0 : Int))) (hd : d ∈ multiple_steps self o) : d ≠ self.pos := by
  unfold multiple_steps at hd
  rw [List.mem_filterMap] at hd
  obtain ⟨step, hstep, hres⟩ := hd
  obtain ⟨hadd, -⟩ := result_ok_try_add hres
  rw [List.mem_range'_1] at hstep
  intro hdp
  have hr : self.pos.rank + o.1 * Int.ofNat step = self.pos.rank := by
    have := congrArg Square.rank (hdp ▸ hadd)
    simpa [Square.add] using this.symm
  have hf : self.pos.file + o.2 * Int.ofNat step = self.pos.file := by
    have := congrArg Square.file (hdp ▸ hadd)
    simpa [Square.add] using this.symm
  have hstep1 : (1 : Int) ≤ Int.ofNat step := by
    simp only [Int.ofNat_eq_coe]
    exact_mod_cast hstep.1
  have ho1 : o.1 * Int.ofNat step = 0 := by omega
  have ho2 : o.2 * Int.ofNat step = 0 := by omega
  have hz : Int.ofNat step ≠ 0 := by omega
  apply h0
  obtain ⟨o1, o2⟩ := o
  simp only [Prod.mk.injEq]
  constructor
  · exact (mul_eq_zero.mp ho1).resolve_right hz
  · exact (mul_eq_zero.mp ho2).resolve_right hz

/-- Every candidate destination in `get_move_set` differs from the piece's own
square: all table offsets are non-zero and slides use step factors `≥ 1`. -/
theorem get_move_set_ne {self : Piece} {d : Square} (hd : d ∈ get_move_set self) :
    d ≠ self.pos := by
  obtain ⟨c, t, pos, m⟩ := self
  cases t with
  | Pawn =>
    cases c with
    | White =>
      exact mem_filterMap_try_add_ne (by decide) hd
    | Black =>
      exact mem_filterMap_try_add_ne (by decide) hd
  | Knight => exact mem_filterMap_try_add_ne (by decide) hd
  | King => exact mem_filterMap_try_add_ne (by decide) hd
  | Bishop =>
    rw [show get_move_set ⟨c, .Bishop, pos, m⟩ =
      BISHOP_OFFSETS.flatMap (fun offset => multiple_steps ⟨c, .Bishop, pos, m⟩ offset) from rfl,
      List.mem_flatMap] at hd
    obtain ⟨o, ho, hmem⟩ := hd
    refine mem_multiple_steps_ne ?_ hmem
    simp only [BISHOP_OFFSETS, List.mem_cons, List.not_mem_nil, or_false] at ho
    rcases ho with rfl | rfl | rfl | rfl <;> decide
  | Rook =>
    rw [show get_move_set ⟨c, .Rook, pos, m⟩ =
      ROOK_OFFSETS.flatMap (fun offset => multiple_steps ⟨c, .Rook, pos, m⟩ offset) from rfl,
      List.mem_flatMap] at hd
    obtain ⟨o, ho, hmem⟩ := hd
    refine mem_multiple_steps_ne ?_ hmem
    simp only [ROOK_OFFSETS, List.mem_cons, List.not_mem_nil, or_false] at ho
    rcases ho with rfl | rfl | rfl | rfl <;> decide
  | Queen =>
    rw [show get_move_set ⟨c, .Queen, pos, m⟩ =
      (ROOK_OFFSETS ++ BISHOP_OFFSETS).flatMap
        (fun offset => multiple_steps ⟨c, .Queen, pos, m⟩ offset) from rfl,
      List.mem_flatMap] at hd
    obtain ⟨o, ho, hmem⟩ := hd
    refine mem_multiple_steps_ne ?_ hmem
    simp only [ROOK_OFFSETS, BISHOP_OFFSETS, List.mem_append, List.mem_cons,
      List.not_mem_nil, or_false] at ho
    rcases ho with (rfl | rfl | rfl | rfl) | (rfl | rfl | rfl | rfl) <;> decide

/-- Membership in `legal_moves` unfolded into its four source conditions. -/
theorem mem_legal_moves {self : Piece} {pieces : List Piece} {lm : Option MoveRecord}
    {d : Square} :
    d ∈ legal_moves self pieces lm ↔
      (d ∈ get_move_set self ∧ has_clear_path self d pieces = true ∧
       piece_specfic_rules self d pieces lm = true ∧ avoids_check self d pieces = true) := by
  unfold legal_moves
  rw [List.mem_filter]
  simp [Bool.and_eq_true, and_assoc]

/-- C1: a declared-legal move never leaves or places the mover's own king in
check — whenever a destination is in `legal_moves` and the simulated position
(mover relocated, opposing piece on the destination removed) contains a king
of the mover's colour, no opposing piece in that simulated position has a
valid move onto that king's square. -/
theorem legal_moves_avoid_check (self : Piece) (pieces : List Piece)
    (lm : Option MoveRecord) (d : Square) (k : Piece)
    (hmem : d ∈ legal_moves self pieces lm)
    (hking : (simulated_pieces self d pieces).find? (fun piece =>
        decide (piece.colour = self.colour ∧ piece.piece_type = PieceType.King)) = some k) :
    ∀ q, q ∈ simulated_pieces self d pieces → q.colour ≠ self.colour →
      is_move_valid q k.pos (simulated_pieces self d pieces) (some (self, self.pos, d)) =
        false := by
  intro q hq hcol
  have hav : avoids_check self d pieces = true := (mem_legal_moves.mp hmem).2.2.2
  rw [avoids_check, hking] at hav
  simp only [Bool.not_eq_true'] at hav
  rw [List.any_eq_false] at hav
  have hqf : q ∈ (simulated_pieces self d pieces).filter
      (fun piece => decide (¬ piece.colour = self.colour)) := by
    rw [List.mem_filter]
    exact ⟨hq, by simpa using hcol⟩
  have := hav q hqf
  simpa using this

/-- The position for the C1 witness: a white king, a white pawn about to step
forward, and a distant black rook. -/
def c1_pieces : List Piece :=
  [⟨.White, .King, ⟨0, 4⟩, true⟩, ⟨.White, .Pawn, ⟨1, 4⟩, false⟩,
   ⟨.Black, .Rook, ⟨7, 0⟩, true⟩]

/-- Witness for C1: after the legal pawn step e2–e3 the black rook has no
valid move onto the white king's square. -/
theorem legal_moves_avoid_check_witness :
    is_move_valid ⟨.Black, .Rook, ⟨7, 0⟩, true⟩ (⟨0, 4⟩ : Square)
      (simulated_pieces ⟨.White, .Pawn, ⟨1, 4⟩, false⟩ ⟨2, 4⟩ c1_pieces)
      (some (⟨.White, .Pawn, ⟨1, 4⟩, false⟩, ⟨1, 4⟩, ⟨2, 4⟩)) = false :=
  legal_moves_avoid_check ⟨.White, .Pawn, ⟨1, 4⟩, false⟩ c1_pieces none ⟨2, 4⟩
    ⟨.White, .King, ⟨0, 4⟩, true⟩ (by decide) (by decide)
    ⟨.Black, .Rook, ⟨7, 0⟩, true⟩ (by decide) (by decide)

/-- C2 (amended): `legal_moves` never contains the mover's own current square,
unconditionally; and, provided no square holds more than one piece, it never
contains a square occupied by a same-colour piece. -/
theorem legal_moves_excludes (self : Piece) (pieces : List Piece)
    (lm : Option MoveRecord) (d : Square)
    (hmem : d ∈ legal_moves self pieces lm) :
    d ≠ self.pos ∧
    ((∀ p ∈ pieces, ∀ q ∈ pieces, p.pos = q.pos → p = q) →
      pieces.all (fun p => decide (¬ (p.pos = d ∧ p.colour = self.colour))) = true) := by
  obtain ⟨hms, hcp, -, -⟩ := mem_legal_moves.mp hmem
  refine ⟨get_move_set_ne hms, ?_⟩
  intro huniq
  rw [List.all_eq_true]
  intro p hp
  rw [decide_eq_true_eq]
  rintro ⟨hpos, hcol⟩
  have hocc : d.is_occupied pieces ≠ some self.colour := by
    rw [has_clear_path, Bool.and_eq_true, decide_eq_true_eq] at hcp
    exact hcp.2
  apply hocc
  rw [Square.is_occupied]
  cases hfind : pieces.find? (fun piece => decide (d = piece.pos)) with
  | none =>
    have := List.find?_eq_none.mp hfind p hp
    simp [hpos] at this
  | some q =>
    have hqmem : q ∈ pieces := List.mem_of_find?_eq_some hfind
    have hqpos : d = q.pos := by
      have hqpred := List.find?_some hfind
      simpa using hqpred
    have hqp : q = p := huniq q hqmem p hp (by rw [← hqpos, hpos])
    simp [hqp, hcol]

/-- The position refuting C2 as stated: a black knight and a white knight both
stand on e5 (a state no real game reaches, but one the claim's quantifier
admits); the occupancy scan sees only the black knight, so the white rook may
"legally" move to the square its own knight occupies. -/
def c2_pieces : List Piece :=
  [⟨.Black, .Knight, ⟨4, 4⟩, true⟩, ⟨.White, .Knight, ⟨4, 4⟩, true⟩,
   ⟨.White, .King, ⟨0, 0⟩, true⟩, ⟨.White, .Rook, ⟨4, 0⟩, true⟩]

/-- Counterexample to C2 as stated: the destination `e5` is in the white
rook's legal moves although a white knight occupies it. -/
theorem legal_moves_same_colour_cex :
    (⟨4, 4⟩ : Square) ∈ legal_moves ⟨.White, .Rook, ⟨4, 0⟩, true⟩ c2_pieces none ∧
    (⟨.White, .Knight, ⟨4, 4⟩, true⟩ : Piece) ∈ c2_pieces ∧
    Piece.colour ⟨.White, .Knight, ⟨4, 4⟩, true⟩ =
      Piece.colour ⟨.White, .Rook, ⟨4, 0⟩, true⟩ := by
  decide

/-- Witness for C2 (amended): the legal pawn move to e3 is not the pawn's own
square, and on the single-occupancy position of `c1_pieces` it lands on no
white-occupied square. -/
theorem legal_moves_excludes_witness :
    (⟨2, 4⟩ : Square) ≠ (⟨1, 4⟩ : Square) ∧
    (c1_pieces.all (fun p =>
      decide (¬ (p.pos = ⟨2, 4⟩ ∧ p.colour = PieceColour.White))) = true) :=
  ⟨(legal_moves_excludes ⟨.White, .Pawn, ⟨1, 4⟩, false⟩ c1_pieces none ⟨2, 4⟩
      (by decide)).1,
   (legal_moves_excludes ⟨.White, .Pawn, ⟨1, 4⟩, false⟩ c1_pieces none ⟨2, 4⟩
      (by decide)).2 (by decide)⟩

/-- C3 (amended): en passant is accepted if and only if the capturing piece is
a pawn, the preceding move was a pawn moving exactly two ranks (in either
direction) ending one file away on the capturing pawn's rank, and the
destination is in the double-stepped pawn's file exactly one rank away from it
on *either* side (the test does not constrain the direction; the forward-only
pattern table is what keeps the far-side square out of generated legal moves);
and every entity captured by `get_en_passant_piece` stands on the previous
move's destination square — the double-stepped pawn's square, never the
capture destination itself. -/
theorem may_take_en_passant_iff :
    (∀ (self : Piece) (d : Square) (lm : Option MoveRecord),
      may_take_en_passant self d lm = true ↔
        (self.piece_type = PieceType.Pawn ∧ ∃ prev o t, lm = some (prev, o, t) ∧
          prev.piece_type = PieceType.Pawn ∧
          (o.rank = t.rank + 2 ∨ o.rank = t.rank - 2) ∧
          (t.file = self.pos.file + 1 ∨ t.file = self.pos.file - 1) ∧
          t.rank = self.pos.rank ∧
          d.file = t.file ∧
          (d.rank = t.rank + 1 ∨ d.rank = t.rank - 1))) ∧
    (∀ (entities : List (Nat × Piece)) (sq : Square) (cap : Nat)
        (ev : MoveMadeEvent) (e : Nat),
      get_en_passant_piece entities sq cap (some ev) = some e →
        ∃ p, (e, p) ∈ entities ∧ p.pos = ev.destination ∧ p.pos ≠ sq) := by
  have hchar : ∀ (self : Piece) (d : Square) (lm : Option MoveRecord),
      may_take_en_passant self d lm = true ↔
        (self.piece_type = PieceType.Pawn ∧ ∃ prev o t, lm = some (prev, o, t) ∧
          prev.piece_type = PieceType.Pawn ∧
          (o.rank = t.rank + 2 ∨ o.rank = t.rank - 2) ∧
          (t.file = self.pos.file + 1 ∨ t.file = self.pos.file - 1) ∧
          t.rank = self.pos.rank ∧
          d.file = t.file ∧
          (d.rank = t.rank + 1 ∨ d.rank = t.rank - 1)) := by
    intro self d lm
    by_cases hp : self.piece_type = PieceType.Pawn
    · cases lm with
      | none => simp [may_take_en_passant, hp]
      | some r =>
        obtain ⟨prev0, o0, t0⟩ := r
        simp only [may_take_en_passant, hp, ne_eq, not_true_eq_false, if_false,
          decide_eq_true_eq, true_and]
        constructor
        · rintro ⟨h1, h2, h3, h4, h5, h6⟩
          exact ⟨prev0, o0, t0, rfl, h1, by omega, by omega, h4, h5, by omega⟩
        · rintro ⟨prev, o, t, heq, h1, h2, h3, h4, h5, h6⟩
          have h' : prev = prev0 ∧ o = o0 ∧ t = t0 := by
            simpa [Prod.ext_iff] using heq.symm
          obtain ⟨rfl, rfl, rfl⟩ := h'
          exact ⟨h1, by omega, by omega, h4, h5, by omega⟩
    · simp [may_take_en_passant, hp]
  refine ⟨hchar, ?_⟩
  intro entities sq cap ev e h
  cases hfind : entities.find? (fun ep => decide (ep.1 = cap)) with
  | none => simp [get_en_passant_piece, hfind] at h
  | some ep =>
    obtain ⟨ent, capturer⟩ := ep
    simp only [get_en_passant_piece, hfind, Option.map_some'] at h
    by_cases hmay : may_take_en_passant capturer sq (some ev.record) = true
    · rw [if_pos hmay] at h
      rw [Option.map_eq_some'] at h
      obtain ⟨⟨e', p⟩, hfind2, he⟩ := h
      have hpmem : (e', p) ∈ entities := List.mem_of_find?_eq_some hfind2
      have hppos : p.pos = ev.destination := by
        have hpred := List.find?_some hfind2
        simpa using hpred
      have hrank : sq.rank ≠ ev.destination.rank := by
        obtain ⟨-, prev, o, t, heq, -, -, -, -, -, h6⟩ := (hchar capturer sq _).mp hmay
        have ht : t = ev.destination := by
          have h' := Option.some.inj heq
          exact (congrArg (fun x => x.2.2) h').symm
        rw [ht] at h6
        omega
      subst he
      refine ⟨p, hpmem, hppos, ?_⟩
      intro hps
      rw [hps] at hppos
      exact hrank (congrArg Square.rank hppos)
    · rw [if_neg hmay] at h
      simp at h

/-- The capturing white pawn on e5 for the C3 scenarios. -/
def c3_pawn : Piece := ⟨.White, .Pawn, ⟨4, 4⟩, true⟩

/-- The previous move for the C3 scenarios: the black pawn double step d7–d5
(piece snapshot before the move, origin, destination). -/
def c3_rec : MoveRecord := (⟨.Black, .Pawn, ⟨6, 3⟩, false⟩, ⟨6, 3⟩, ⟨4, 3⟩)

/-- Counterexample to C3 as stated: after the black double step d7–d5 the
white pawn on e5 is allowed to "capture en passant" onto d4 — the square on
the far side of the double-stepped pawn — although the square the
double-stepped pawn passed over (the vacated square behind it) is d6. -/
theorem may_take_en_passant_backward_cex :
    may_take_en_passant c3_pawn ⟨3, 3⟩ (some c3_rec) = true ∧
    (⟨3, 3⟩ : Square) ≠ (⟨5, 3⟩ : Square) := by
  decide

/-- The entity list for the C3 witness: the capturing white pawn (entity 0)
and the double-stepped black pawn on d5 (entity 1). -/
def c3_entities : List (Nat × Piece) := [(0, c3_pawn), (1, ⟨.Black, .Pawn, ⟨4, 3⟩, true⟩)]

/-- The previous move of the C3 witness as a `MoveMadeEvent`. -/
def c3_event : MoveMadeEvent := ⟨⟨.Black, .Pawn, ⟨6, 3⟩, false⟩, ⟨6, 3⟩, ⟨4, 3⟩, .Move⟩

/-- Witness for C3 (amended): the proper en-passant capture e5xd6 is accepted,
and the entity resolved as captured stands on d5 — the double-stepped pawn's
square, not the capture destination d6. -/
theorem may_take_en_passant_iff_witness :
    may_take_en_passant c3_pawn ⟨5, 3⟩ (some c3_rec) = true ∧
    (∃ p, (1, p) ∈ c3_entities ∧ p.pos = c3_event.destination ∧ p.pos ≠ (⟨5, 3⟩ : Square)) := by
  constructor
  · exact (may_take_en_passant_iff.1 c3_pawn ⟨5, 3⟩ (some c3_rec)).mpr
      ⟨by decide, ⟨.Black, .Pawn, ⟨6, 3⟩, false⟩, ⟨6, 3⟩, ⟨4, 3⟩, rfl,
        by decide, by decide, by decide, by decide, by decide, by decide⟩
  · exact may_take_en_passant_iff.2 c3_entities ⟨5, 3⟩ 0 c3_event 1 (by decide)

/-- The C4 failing position: white king e1 and white rook a1, both unmoved,
with a white knight still on b1 — a square strictly between the king and the
rook. -/
def c4_pieces : List Piece :=
  [⟨.White, .King, ⟨0, 4⟩, false⟩, ⟨.White, .Rook, ⟨0, 0⟩, false⟩,
   ⟨.White, .Knight, ⟨0, 1⟩, false⟩]

/-- C4: queenside castling is accepted although the b1 square between the
king and the a-file rook is occupied — `may_castle` only checks emptiness
between the king and its *destination* (d1 here), so the knight on b1 is
never consulted, and c1 even appears among the king's generated legal moves. -/
theorem may_castle_through_occupied_cex :
    may_castle ⟨.White, .King, ⟨0, 4⟩, false⟩ ⟨0, 2⟩ c4_pieces = true ∧
    (⟨0, 2⟩ : Square) ∈ legal_moves ⟨.White, .King, ⟨0, 4⟩, false⟩ c4_pieces none ∧
    (⟨.White, .Knight, ⟨0, 1⟩, false⟩ : Piece) ∈ c4_pieces := by
  decide

/-- The C5 failing position: the white rook e5 attacks the black king h5 along
the fifth rank but is pinned to its own king e1 by the black queen e8. -/
def c5_pieces : List Piece :=
  [⟨.White, .King, ⟨0, 4⟩, true⟩, ⟨.White, .Rook, ⟨4, 4⟩, true⟩,
   ⟨.Black, .Queen, ⟨7, 4⟩, true⟩, ⟨.Black, .King, ⟨4, 7⟩, true⟩]

/-- The previous move for the C5 failing position (the black queen arriving
on e8). -/
def c5_event : MoveMadeEvent := ⟨⟨.Black, .Queen, ⟨7, 0⟩, true⟩, ⟨7, 0⟩, ⟨7, 4⟩, .Move⟩

/-- C5: the pinned white rook has a *valid* move onto the black king's square,
yet `is_in_check` reports no check for Black — the game-status check
computation filters attacks through full `legal_moves` (whose check-avoidance
filter removes the pinned rook's capture), not through the structural
`is_move_valid` predicate. -/
theorem is_in_check_misses_pinned_attacker :
    is_move_valid ⟨.White, .Rook, ⟨4, 4⟩, true⟩ ⟨4, 7⟩ c5_pieces (some c5_event.record) = true ∧
    (⟨.Black, .King, ⟨4, 7⟩, true⟩ : Piece) ∈ c5_pieces ∧
    is_in_check .Black c5_pieces c5_pieces c5_event = false := by
  decide

/-- The fifty-move counter written by the status if-chain is whatever counter
value it was given, in every branch. -/
theorem update_status_branches_last_action (la : Int) (t : PieceColour)
    (check has_moves : Bool) :
    (update_status_branches la t check has_moves).last_action = la := by
  unfold update_status_branches
  split_ifs <;> rfl

/-- The back-rank-mate position refuting C6 as stated: white king g7, white
rook a8, black king h8; the rook's arrival on a8 is mate. -/
def c6_pieces : List Piece :=
  [⟨.White, .King, ⟨5, 6⟩, true⟩, ⟨.White, .Rook, ⟨7, 0⟩, true⟩,
   ⟨.Black, .King, ⟨7, 7⟩, true⟩]

/-- The mating move for the C6 counterexample: the white rook a1–a8. -/
def c6_event : MoveMadeEvent := ⟨⟨.White, .Rook, ⟨0, 0⟩, true⟩, ⟨0, 0⟩, ⟨7, 0⟩, .Move⟩

/-- Counterexample to C6 as stated: the mating rook move brings the fifty-move
counter to exactly 50, yet the resulting status is `Checkmate`, not
`Draw FiftyMoveRule` — the checkmate branch is evaluated first. -/
theorem update_status_fifty_mate_cex :
    (update_status 49 .White c6_pieces c6_event).last_action = 50 ∧
    (update_status 49 .White c6_pieces c6_event).status = GameStatus.Checkmate ∧
    (update_status 49 .White c6_pieces c6_event).status ≠
      GameStatus.Draw DrawReason.FiftyMoveRule := by
  decide

/-- C6 (amended): when the applied move brings the fifty-move counter to 50,
the resulting status is `Draw FiftyMoveRule` regardless of check or stalemate
conditions, *unless* the same move delivers checkmate (opponent in check with
no legal move), which is evaluated first and takes precedence. -/
theorem update_status_fifty_move_draw (la : Int) (turn : PieceColour)
    (pieces : List Piece) (ev : MoveMadeEvent)
    (hcount : (update_status la turn pieces ev).last_action = 50)
    (hnotmate : ¬ (is_in_check turn.opponent pieces pieces ev = true ∧
        player_has_moves turn.opponent pieces pieces ev = false)) :
    (update_status la turn pieces ev).status = GameStatus.Draw DrawReason.FiftyMoveRule := by
  unfold update_status at hcount ⊢
  rw [update_status_branches_last_action] at hcount
  rw [update_status_branches]
  rw [if_neg hnotmate, if_pos hcount]

/-- The two-kings position for the C6 and C7 witnesses. -/
def c6w_pieces : List Piece :=
  [⟨.White, .King, ⟨0, 0⟩, true⟩, ⟨.Black, .King, ⟨7, 7⟩, true⟩]

/-- The quiet king move b1–a1 for the C6 and C7 witnesses: not a pawn move,
not a capture. -/
def c6w_event : MoveMadeEvent := ⟨⟨.White, .King, ⟨0, 1⟩, true⟩, ⟨0, 1⟩, ⟨0, 0⟩, .Move⟩

/-- Witness for C6 (amended): a quiet king move bringing the counter from 49
to 50 in a position that is neither check nor stalemate yields the fifty-move
draw. -/
theorem update_status_fifty_move_draw_witness :
    (update_status 49 .White c6w_pieces c6w_event).status =
      GameStatus.Draw DrawReason.FiftyMoveRule :=
  update_status_fifty_move_draw 49 .White c6w_pieces c6w_event (by decide) (by decide)

/-- C7: on every applied move the fifty-move counter becomes 0 when the moved
piece is a pawn or the move is a take, and becomes the old value plus one
otherwise; and "take" means exactly the `Take` and `TakeEnPassant` (en
passant) move types. -/
theorem update_status_counter (la : Int) (turn : PieceColour) (pieces : List Piece)
    (ev : MoveMadeEvent) :
    ((ev.piece.piece_type = PieceType.Pawn ∨ ev.is_take = true) →
      (update_status la turn pieces ev).last_action = 0) ∧
    ((ev.piece.piece_type ≠ PieceType.Pawn ∧ ev.is_take = false) →
      (update_status la turn pieces ev).last_action = la + 1) ∧
    (ev.is_take = true ↔
      (∃ e, ev.move_type = MoveType.Take e) ∨ (∃ e, ev.move_type = MoveType.TakeEnPassant e)) := by
  refine ⟨?_, ?_, ?_⟩
  · intro h
    unfold update_status
    rw [update_status_branches_last_action, if_pos h]
  · rintro ⟨h1, h2⟩
    unfold update_status
    rw [update_status_branches_last_action, if_neg (by simp [h1, h2])]
  · cases hmt : ev.move_type <;> simp [MoveMadeEvent.is_take, hmt]

/-- Witness for C7: a pawn move zeroes the counter; a quiet king move bumps it
by one. -/
theorem update_status_counter_witness :
    (update_status 7 .White c6w_pieces
      ⟨⟨.White, .Pawn, ⟨1, 0⟩, false⟩, ⟨1, 0⟩, ⟨2, 0⟩, .Move⟩).last_action = 0 ∧
    (update_status 7 .White c6w_pieces c6w_event).last_action = 7 + 1 := by
  constructor
  · exact (update_status_counter 7 .White c6w_pieces
      ⟨⟨.White, .Pawn, ⟨1, 0⟩, false⟩, ⟨1, 0⟩, ⟨2, 0⟩, .Move⟩).1 (Or.inl rfl)
  · exact (update_status_counter 7 .White c6w_pieces c6w_event).2.1 ⟨by decide, rfl⟩

/-- Does a status make `update_status` pass the turn to the opponent?  Only
`Check` and `OnGoing` do (the two branches that call `PlayerTurn::change`). -/
def flips_turn : GameStatus → Bool
  | .Check => true
  | .OnGoing => true
  | _ => false

/-- C10: the status update leaves the player turn unchanged exactly when the
new status is terminal (`Checkmate` or a `Draw`); the turn flips to the
opponent only for `Check` and `OnGoing` outcomes. -/
theorem update_status_turn (la : Int) (turn : PieceColour) (pieces : List Piece)
    (ev : MoveMadeEvent) :
    (update_status la turn pieces ev).turn =
      if flips_turn (update_status la turn pieces ev).status = true then turn.opponent
      else turn := by
  unfold update_status update_status_branches
  split_ifs <;> simp_all [flips_turn]

/-- C8, stated in the claim's words: among the same-colour, same-type pieces
other than the mover (pieces are value records identified by their square, so
"other than" is "on a different square") whose legal-move set contains the
destination — if any shares the mover's file and any shares the mover's rank,
the disambiguator is the mover's full square; if any shares the file only, the
rank digit; if the set is non-empty but none shares the file, the file letter;
if the set is empty, the empty string. -/
def claim_disambiguator (last_move : MoveMadeEvent) (moving_piece : Piece)
    (pieces : List Piece) (destination : Square) : String :=
  let s := pieces.filter (fun piece =>
    decide (piece.colour = moving_piece.colour ∧
      piece.piece_type = moving_piece.piece_type ∧
      destination ∈ legal_moves piece pieces (some last_move.record) ∧
      piece.pos ≠ moving_piece.pos))
  if (∃ p ∈ s, p.pos.file = moving_piece.pos.file) ∧
      (∃ p ∈ s, p.pos.rank = moving_piece.pos.rank) then
    moving_piece.pos.algebraic
  else if ∃ p ∈ s, p.pos.file = moving_piece.pos.file then
    rank_label moving_piece.pos
  else if s ≠ [] then
    file_label moving_piece.pos
  else ""

/-- C8: `disambiguate_piece` computes exactly the disambiguator described by
the claim's case analysis. -/
theorem disambiguate_piece_spec (last_move : MoveMadeEvent) (moving_piece : Piece)
    (pieces : List Piece) (destination : Square) :
    disambiguate_piece last_move moving_piece pieces destination =
      claim_disambiguator last_move moving_piece pieces destination := by
  unfold disambiguate_piece claim_disambiguator
  set s := pieces.filter (fun piece =>
    decide (piece.colour = moving_piece.colour ∧
      piece.piece_type = moving_piece.piece_type ∧
      destination ∈ legal_moves piece pieces (some last_move.record) ∧
      piece.pos ≠ moving_piece.pos)) with hs
  have hfile : (s.any (fun piece => decide (piece.pos.file = moving_piece.pos.file)) = true)
      ↔ ∃ p ∈ s, p.pos.file = moving_piece.pos.file := by
    rw [List.any_eq_true]
    simp
  have hrank : (s.any (fun piece => decide (piece.pos.rank = moving_piece.pos.rank)) = true)
      ↔ ∃ p ∈ s, p.pos.rank = moving_piece.pos.rank := by
    rw [List.any_eq_true]
    simp
  by_cases hf : ∃ p ∈ s, p.pos.file = moving_piece.pos.file
  · by_cases hr : ∃ p ∈ s, p.pos.rank = moving_piece.pos.rank
    · rw [if_pos (hfile.mpr hf), if_pos (hrank.mpr hr), if_pos ⟨hf, hr⟩]
    · rw [if_pos (hfile.mpr hf),
        if_neg (fun hc : (s.any
          (fun piece => decide (piece.pos.rank = moving_piece.pos.rank))) = true =>
            hr (hrank.mp hc)),
        if_neg (fun hc : _ ∧ _ => hr hc.2), if_pos hf]
  · rw [if_neg (fun hc : (s.any
        (fun piece => decide (piece.pos.file = moving_piece.pos.file))) = true =>
          hf (hfile.mp hc)),
      if_neg (fun hc : _ ∧ _ => hf hc.1),
      if_neg (fun hc : ∃ p ∈ s, p.pos.file = moving_piece.pos.file => hf hc)]
    by_cases he : s = []
    · rw [if_neg (by simp [he]), if_neg (fun hc => hc he)]
    · rw [if_pos (by simpa [List.isEmpty_iff] using he), if_pos he]

end Chess
